import Mathlib

/-!
Verification of the cost-ingestion pipeline of the `aws` repository
(`get-cost-data-to-database.py` and `get-cost-data-to-excel.py`).

The Python scripts are shallowly embedded below: the PostgreSQL store is a
record of dimension tables and a fact-row list, the AWS Cost Explorer
response is a record of time buckets, and the stateful script functions
become explicit state-passing Lean functions.  Machine-level behaviour of
external collaborators (Python `float`, the `DECIMAL(18,2)` column, the
store's transaction boundary) is modelled from their documented semantics
where the claims need it.
-/

set_option maxRecDepth 8000

namespace AwsCosts

/-! ## Calendar dates (`datetime.date` values used by both scripts) -/

structure Date where
  year : Nat
  month : Nat
  day : Nat
deriving DecidableEq

def isLeapYear (y : Nat) : Bool :=
  (y % 4 = 0 && y % 100 != 0) || y % 400 = 0

def daysInMonth (y m : Nat) : Nat :=
  if m = 2 then (if isLeapYear y then 29 else 28)
  else if m = 4 ∨ m = 6 ∨ m = 9 ∨ m = 11 then 30
  else 31

/-- `date - timedelta(days=1)` for a valid date (with borrow into the
previous month and, in January, into the previous year). -/
def subOneDay (d : Date) : Date :=
  if 1 < d.day then ⟨d.year, d.month, d.day - 1⟩
  else if 1 < d.month then ⟨d.year, d.month - 1, daysInMonth d.year (d.month - 1)⟩
  else ⟨d.year - 1, 12, 31⟩

/-- `date.replace(day=1)`. -/
def replaceDay1 (d : Date) : Date :=
  ⟨d.year, d.month, 1⟩

def pad2 (n : Nat) : String :=
  if n < 10 then "0" ++ toString n else toString n

/-- `strftime("%Y-%m-%d")` for years of at least four digits. -/
def isoDate (d : Date) : String :=
  toString d.year ++ "-" ++ pad2 d.month ++ "-" ++ pad2 d.day

/-- `strftime("%b")` in the C locale. -/
def monthAbbrev (m : Nat) : String :=
  match m with
  | 1 => "Jan" | 2 => "Feb" | 3 => "Mar" | 4 => "Apr"
  | 5 => "May" | 6 => "Jun" | 7 => "Jul" | 8 => "Aug"
  | 9 => "Sep" | 10 => "Oct" | 11 => "Nov" | 12 => "Dec"
  | _ => ""

/-- `strftime("%Y")` for years of at least four digits. -/
def yearLabel (d : Date) : String :=
  toString d.year

def digitVal (c : Char) : Option Nat :=
  if 48 ≤ c.toNat ∧ c.toNat ≤ 57 then some (c.toNat - 48) else none

def parseDigitsAux : List Char → Nat → Option Nat
  | [], acc => some acc
  | c :: cs, acc =>
    match digitVal c with
    | some d => parseDigitsAux cs (10 * acc + d)
    | none => none

/-- A nonempty all-digit character list read as a natural number. -/
def parseDigits : List Char → Option Nat
  | [] => none
  | cs => parseDigitsAux cs 0

/-- Split a character list into fields at a separator character. -/
def splitFields (sep : Char) : List Char → List (List Char)
  | [] => [[]]
  | c :: cs =>
    let r := splitFields sep cs
    if c = sep then [] :: r
    else
      match r with
      | f :: rest => (c :: f) :: rest
      | [] => [[c]]

/-- `datetime.strptime(s, "%Y-%m-%d")` on well-formed inputs: three
dash-separated decimal fields forming a valid calendar date; `none` models
the `ValueError` raised otherwise. -/
def parseIsoDate (s : String) : Option Date :=
  match splitFields '-' s.data with
  | [ys, ms, ds] =>
    match parseDigits ys, parseDigits ms, parseDigits ds with
    | some y, some m, some d =>
      if 1 ≤ m ∧ m ≤ 12 ∧ 1 ≤ d ∧ d ≤ daysInMonth y m then some ⟨y, m, d⟩ else none
    | _, _, _ => none
  | _ => none

/-- The window computation shared by both scripts (database script lines
229-233, excel script lines 7-17): first day of the previous calendar month
to first day of the current calendar month, as ISO strings. -/
def reportingWindow (today : Date) : String × String :=
  let first_day_of_current_month := replaceDay1 today
  let first_day_of_previous_month := replaceDay1 (subOneDay first_day_of_current_month)
  (isoDate first_day_of_previous_month, isoDate first_day_of_current_month)

/-- Modelled from the spec: the first day of the calendar month preceding
the execution month, with year rollover in January. -/
def firstOfPrevMonth (today : Date) : Date :=
  if today.month = 1 then ⟨today.year - 1, 12, 1⟩ else ⟨today.year, today.month - 1, 1⟩

/-! ## Decimal strings and Python `float`

`float(group["Metrics"]["UnblendedCost"]["Amount"])` (database script line
209, excel script line 51) parses a decimal string into an IEEE-754
binary64 value.  We model the exact reading of a nonnegative decimal
literal (`parseDecimal`) and the binary64 rounding step (`roundToDouble`,
round to nearest, ties to even, for values in the normal range). -/

/-- Split a character list at its first dot, if any. -/
def splitAtDot : List Char → List Char × Option (List Char)
  | [] => ([], none)
  | c :: cs =>
    if c = '.' then ([], some cs)
    else
      let r := splitAtDot cs
      (c :: r.1, r.2)

/-- Exact reading of a nonnegative decimal literal such as "12.50": the
rational it denotes, with no rounding.  `none` models the `ValueError` of
`float()` on other inputs (the amounts the scripts consume are of this
shape). -/
def parseDecimal (s : String) : Option ℚ :=
  match (splitAtDot s.data).2 with
  | none =>
    match parseDigits (splitAtDot s.data).1 with
    | some n => some ((n : ℚ))
    | none => none
  | some f =>
    match parseDigits (splitAtDot s.data).1, parseDigits f with
    | some n, some m => some ((n : ℚ) + (m : ℚ) / ((10 : ℚ) ^ f.length))
    | _, _ => none

/-- Floor of the base-2 logarithm for values below `2 ^ 64` (the range the
pipeline's magnitudes inhabit): the largest `k < 64` with `2 ^ k ≤ n`,
and 0 for `n = 0`. -/
def log2Floor (n : Nat) : Nat :=
  (List.range 64).foldl (fun acc k => if 2 ^ k ≤ n then k else acc) 0

/-- Numerator and denominator of `(a / b) * 2 ^ e`. -/
def scaledPair (a b : Nat) (e : Int) : Nat × Nat :=
  if 0 ≤ e then (a * 2 ^ e.toNat, b) else (a, b * 2 ^ (-e).toNat)

/-- `2 ^ 52 ≤ (a / b) * 2 ^ e < 2 ^ 53`. -/
def fitsExp (a b : Nat) (e : Int) : Prop :=
  2 ^ 52 * (scaledPair a b e).2 ≤ (scaledPair a b e).1 ∧
    (scaledPair a b e).1 < 2 ^ 53 * (scaledPair a b e).2

instance (a b : Nat) (e : Int) : Decidable (fitsExp a b e) :=
  inferInstanceAs (Decidable (_ ∧ _))

/-- Nearest binary64 value to a positive rational in the normal range
(round to nearest, ties to even): scale the value into the mantissa range
`[2^52, 2^53)`, round the scaled value to an integer, and scale back. -/
def roundPosToDouble (q : ℚ) : ℚ :=
  let a := q.num.natAbs
  let b := q.den
  let e0 : Int := 52 - Int.ofNat (log2Floor a) + Int.ofNat (log2Floor b)
  let e : Int := if fitsExp a b e0 then e0 else e0 + 1
  let nd := scaledPair a b e
  let m := nd.1 / nd.2
  let r := nd.1 % nd.2
  let mr : Nat :=
    if 2 * r < nd.2 then m
    else if nd.2 < 2 * r then m + 1
    else if m % 2 = 0 then m else m + 1
  if 0 ≤ e then (mr : ℚ) / ((2 ^ e.toNat : Nat) : ℚ)
  else (mr : ℚ) * ((2 ^ (-e).toNat : Nat) : ℚ)

/-- Binary64 rounding of a rational (normal range; the monetary amounts the
pipeline handles are far from overflow and underflow). -/
def roundToDouble (q : ℚ) : ℚ :=
  if q = 0 then 0
  else if 0 < q then roundPosToDouble q
  else -(roundPosToDouble (-q))

/-- The value of `float(s)` for a nonnegative decimal literal `s`: exact
reading followed by binary64 rounding.  This is the parse at line 209 of
the database script. -/
def floatOfDecimalString (s : String) : Option ℚ :=
  (parseDecimal s).map roundToDouble

/-- Modelled from the spec: "amount is parsed from a decimal-string into a
fixed-point decimal value" — the exact 2-decimal fixed-point reading of the
string, with no approximating representation. -/
def parseCostSpec (s : String) : Option ℚ :=
  parseDecimal s

/-- Rounding of a nonnegative value to 2 decimal places, as the
`DECIMAL(18,2)` column of `aws_costs` does on insert (round half away from
zero; modelled from the external store's documented numeric conversion). -/
def round2dec (q : ℚ) : ℚ :=
  ((Rat.floor (q * 100 + 1 / 2) : Int) : ℚ) / 100

/-- The value the fact row's `cost` column holds for an amount string:
`float()` parse followed by the `DECIMAL(18,2)` column conversion. -/
def storedCost (s : String) : Option ℚ :=
  (floatOfDecimalString s).map round2dec

/-! ## The relational store

Tables `accounts`, `months`, `years`, `services` (lines 44-63) each hold
`(surrogate id, natural key)` rows with a `UNIQUE` constraint on the key
and a `SERIAL` id; `aws_costs` (lines 65-73) holds the fact rows with a
uniqueness constraint on `(account_id, service_id, month_id, year_id)`. -/

structure DimTable where
  rows : List (Nat × String)
  nextId : Nat
deriving DecidableEq

def DimTable.empty : DimTable := ⟨[], 1⟩

/-- `SELECT <id> FROM <table> WHERE <key column> = k` on a dimension table:
the id of the first row whose natural key is `k`. -/
def dimLookup : List (Nat × String) → String → Option Nat
  | [], _ => none
  | r :: t, k => if r.2 = k then some r.1 else dimLookup t k

/-- How many rows of a dimension table carry natural key `k`. -/
def countKey : List (Nat × String) → String → Nat
  | [], _ => 0
  | r :: t, k => (if r.2 = k then 1 else 0) + countKey t k

/-- The `get_or_insert_*` pattern (lines 93-150): `SELECT` the id by
natural key; if absent, `INSERT ... RETURNING` the freshly assigned id. -/
def getOrInsert (t : DimTable) (k : String) : Nat × DimTable :=
  match dimLookup t.rows k with
  | some i => (i, t)
  | none => (t.nextId, ⟨t.rows ++ [(t.nextId, k)], t.nextId + 1⟩)

/-- One `INSERT ... ON CONFLICT (<key column>) DO NOTHING`. -/
def dimInsertIgnore (t : DimTable) (k : String) : DimTable :=
  match dimLookup t.rows k with
  | some _ => t
  | none => ⟨t.rows ++ [(t.nextId, k)], t.nextId + 1⟩

/-- `batch_insert` (lines 79-90): `executemany` of the insert-or-ignore
over the given values, then commit. -/
def batch_insert (t : DimTable) (values : List String) : DimTable :=
  values.foldl dimInsertIgnore t

structure FactRow where
  account_id : Nat
  service_id : Nat
  month_id : Nat
  year_id : Nat
  cost : ℚ
deriving DecidableEq

/-- The natural key of the `aws_costs` uniqueness constraint
`UNIQUE(account_id, service_id, month_id, year_id)` (line 72). -/
def FactRow.key (r : FactRow) : Nat × Nat × Nat × Nat :=
  (r.account_id, r.service_id, r.month_id, r.year_id)

/-- `SELECT cost FROM aws_costs WHERE (account_id, service_id, month_id,
year_id) = k`: the cost of the first row with that dimension tuple. -/
def lookupFact : List FactRow → Nat × Nat × Nat × Nat → Option ℚ
  | [], _ => none
  | r :: t, k => if r.key = k then some r.cost else lookupFact t k

/-- One `INSERT INTO aws_costs ... ON CONFLICT (account_id, service_id,
month_id, year_id) DO NOTHING` (lines 215-219): a row whose dimension
tuple is already present is silently skipped. -/
def insertOrIgnoreFact (table : List FactRow) (r : FactRow) : List FactRow :=
  if ∃ x ∈ table, x.key = r.key then table else table ++ [r]

/-- The bulk fact upsert: `executemany` of the insert-or-ignore over the
whole `cost_data` batch (lines 215-219). -/
def upsertFacts (table : List FactRow) (batch : List FactRow) : List FactRow :=
  batch.foldl insertOrIgnoreFact table

structure Store where
  accounts : DimTable
  months : DimTable
  years : DimTable
  services : DimTable
  aws_costs : List FactRow
deriving DecidableEq

def Store.empty : Store :=
  ⟨DimTable.empty, DimTable.empty, DimTable.empty, DimTable.empty, []⟩

/-- `get_or_insert_month` (lines 93-105). -/
def get_or_insert_month (s : Store) (k : String) : Nat × Store :=
  let r := getOrInsert s.months k
  (r.1, { s with months := r.2 })

/-- `get_or_insert_year` (lines 108-120). -/
def get_or_insert_year (s : Store) (k : String) : Nat × Store :=
  let r := getOrInsert s.years k
  (r.1, { s with years := r.2 })

/-- `get_or_insert_service` (lines 123-135). -/
def get_or_insert_service (s : Store) (k : String) : Nat × Store :=
  let r := getOrInsert s.services k
  (r.1, { s with services := r.2 })

/-- `get_or_insert_account` (lines 138-150). -/
def get_or_insert_account (s : Store) (k : String) : Nat × Store :=
  let r := getOrInsert s.accounts k
  (r.1, { s with accounts := r.2 })

/-! ## The raw billing response (AWS Cost Explorer `get_cost_and_usage`) -/

structure CostGroup where
  key : String
  amount : String
deriving DecidableEq

structure TimeBucket where
  start : String
  groups : List CostGroup
deriving DecidableEq

structure RawBillingResponse where
  resultsByTime : List TimeBucket
deriving DecidableEq

/-! ## The billing fetcher's retry loop (lines 163-181)

`for attempt in range(retries)` with `retries = 3`; `break` on success; on
an exception, if `attempt < retries - 1` sleep `2 ** attempt` and retry,
else log and `return`.  `outcome n` is what the remote call does on
attempt `n` (counted from 0); the result records the attempts made, the
sleep durations in order, and the response if any. -/

def retryLoop {R : Type} (outcome : Nat → Except String R) (attempt : Nat) :
    Nat → List Nat × List Nat × Option R
  | 0 => ([], [], none)
  | remaining + 1 =>
    match outcome attempt with
    | Except.ok r => ([attempt], [], some r)
    | Except.error _ =>
      if remaining = 0 then ([attempt], [], none)
      else
        let rest := retryLoop outcome (attempt + 1) remaining
        (attempt :: rest.1, 2 ^ attempt :: rest.2.1, rest.2.2)

def fetchWithRetry {R : Type} (outcome : Nat → Except String R) :
    List Nat × List Nat × Option R :=
  retryLoop outcome 0 3

/-! ## Normalization and the per-account pipeline (`process_account`) -/

/-- The distinct service names of a response, in first-appearance order
(lines 195-199 collect them into `service_names`; the Python set's
iteration order is modelled as first appearance, which claims never depend
on).  Also the row order of the excel frame's services. -/
def serviceList (resp : RawBillingResponse) : List String :=
  resp.resultsByTime.foldl
    (fun acc b =>
      b.groups.foldl (fun acc2 g => if g.key ∈ acc2 then acc2 else acc2 ++ [g.key]) acc)
    []

/-- The inner cost loop over one bucket's groups (lines 207-213): parse the
amount with `float()`, resolve the service and account dimension ids, and
emit a fact tuple carrying the `month_id` and `year_id` passed in.  The
first component is `none` when an amount fails to parse (the exception
reaches the account boundary); the store keeps whatever was resolved up to
that point. -/
def buildCostGroups (account : String) (month_id year_id : Nat) :
    List CostGroup → Store → Option (List FactRow) × Store
  | [], s => (some [], s)
  | g :: gs, s =>
    match floatOfDecimalString g.amount with
    | none => (none, s)
    | some cost =>
      let rs := get_or_insert_service s g.key
      let ra := get_or_insert_account rs.2 account
      match buildCostGroups account month_id year_id gs ra.2 with
      | (none, s3) => (none, s3)
      | (some rows, s3) =>
        (some (⟨ra.1, rs.1, month_id, year_id, cost⟩ :: rows), s3)

/-- The outer cost loop over all time buckets (lines 205-213): every
bucket's groups contribute tuples, all tagged with the same `month_id` and
`year_id` arguments. -/
def buildCostData (account : String) (month_id year_id : Nat) :
    List TimeBucket → Store → Option (List FactRow) × Store
  | [], s => (some [], s)
  | b :: bs, s =>
    match buildCostGroups account month_id year_id b.groups s with
    | (none, s1) => (none, s1)
    | (some rows, s1) =>
      match buildCostData account month_id year_id bs s1 with
      | (none, s2) => (none, s2)
      | (some rows2, s2) => (some (rows ++ rows2), s2)

inductive AccountStatus
  | done
  | failed
deriving DecidableEq

/-- `process_account` (lines 153-225): fetch with retry; on exhaustion
`return` without touching the store; otherwise derive the month and year
labels from the first bucket's period start (lines 184-186), batch-insert
and resolve the dimensions, build the cost batch from every bucket, and
bulk insert-or-ignore it into `aws_costs`.  Any exception on the way (no
bucket, unparsable date or amount) is caught at line 224 and yields the
failed status. -/
def process_account (fetch : Nat → Except String RawBillingResponse)
    (account : String) (s : Store) : Store × AccountStatus :=
  match (fetchWithRetry fetch).2.2 with
  | none => (s, AccountStatus.failed)
  | some resp =>
    match resp.resultsByTime with
    | [] => (s, AccountStatus.failed)
    | b0 :: _ =>
      match parseIsoDate b0.start with
      | none => (s, AccountStatus.failed)
      | some d =>
        let month_label := monthAbbrev d.month
        let year_label := yearLabel d
        let s1 := { s with months := batch_insert s.months [month_label] }
        let s2 := { s1 with years := batch_insert s1.years [year_label] }
        let rm := get_or_insert_month s2 month_label
        let ry := get_or_insert_year rm.2 year_label
        let s5 := { ry.2 with services := batch_insert ry.2.services (serviceList resp) }
        match buildCostData account rm.1 ry.1 resp.resultsByTime s5 with
        | (none, s6) => (s6, AccountStatus.failed)
        | (some rows, s6) =>
          ({ s6 with aws_costs := upsertFacts s6.aws_costs rows }, AccountStatus.done)

/-- The driver loop over the configured account list (lines 236-240).  The
thread pool shares one connection; the claims under verification concern
the sequential semantics, one account after the other, each against the
store state the previous ones left. -/
def runBatch (fetchFor : String → Nat → Except String RawBillingResponse) :
    List String → Store → Store × List (String × AccountStatus)
  | [], s => (s, [])
  | a :: rest, s =>
    let r := process_account (fetchFor a) a s
    let r2 := runBatch fetchFor rest r.1
    (r2.1, (a, r.2) :: r2.2)

/-- `Option`-valued map: `some` of the image list when `f` succeeds on
every element, `none` otherwise. -/
def mapOption {α β : Type} (f : α → Option β) : List α → Option (List β)
  | [] => some []
  | a :: l =>
    match f a, mapOption f l with
    | some b, some bs => some (b :: bs)
    | _, _ => none

/-- The response normalizer of the database pipeline: the month and year
labels come from the period start of the first time bucket only (lines
184-186), while the `(serviceName, cost)` pairs come from the groups of
every bucket in order (lines 205-213). -/
def normalize (resp : RawBillingResponse) :
    Option (String × String × List (String × ℚ)) :=
  match resp.resultsByTime with
  | [] => none
  | b0 :: _ =>
    match parseIsoDate b0.start with
    | none => none
    | some d =>
      (mapOption (fun g => (floatOfDecimalString g.amount).map (fun c => (g.key, c)))
          (resp.resultsByTime.flatMap (fun b => b.groups))).map
        (fun pairs => (monthAbbrev d.month, yearLabel d, pairs))

/-! ## The fact upsert's transaction boundary

Lines 215-220 run the `executemany` inside the connection's current
transaction and then `conn.commit()`.  The transaction semantics of the
external store (modelled from its documented behaviour): statements act on
a pending state only; `commit` publishes it; a transaction aborted by an
unexpected error publishes nothing, and the error propagates to the
account boundary.  `failAfter = some k` models an unexpected error after
`k` rows of the batch were executed. -/

inductive DbError
  | upsertFailed
deriving DecidableEq

/-- The `executemany` of the fact insert inside the transaction: applies
rows to the pending state one by one, stopping where the unexpected error
strikes. -/
def executeFactBatch (failAfter : Option Nat) (pending : List FactRow)
    (batch : List FactRow) : List FactRow × Bool :=
  match failAfter with
  | none => (upsertFacts pending batch, true)
  | some k => (upsertFacts pending (batch.take k), false)

/-- The whole fact upsert step with its per-batch transaction boundary:
what a reader of the fact table observes afterwards, and the error, if
any, surfaced to the caller. -/
def factUpsertTx (failAfter : Option Nat) (committed : List FactRow)
    (batch : List FactRow) : List FactRow × Option DbError :=
  let r := executeFactBatch failAfter committed batch
  if r.2 then (r.1, none) else (committed, some DbError.upsertFailed)

/-! ## The spreadsheet export (`get-cost-data-to-excel.py`)

Lines 44-74: per account, month labels in bucket order (line 46), a frame
with one row per service (first-appearance order), `fillna(0)` for months
a service is absent from, a sheet column per month label after the service
name column, rows sorted by descending total, one sheet per account. -/

/-- `strftime("%b '%y")` (line 46). -/
def monthLabelExcel (d : Date) : String :=
  monthAbbrev d.month ++ " \x27" ++ pad2 (d.year % 100)

def bucketMonthLabel (b : TimeBucket) : Option String :=
  (parseIsoDate b.start).map monthLabelExcel

/-- The `months` list built at lines 44-47, one label per bucket. -/
def monthsOf (resp : RawBillingResponse) : Option (List String) :=
  mapOption bucketMonthLabel resp.resultsByTime

/-- The value of one cell: the service's cost in that bucket (a repeated
group for the same service within a bucket overwrites, as the dict
assignment at line 54 does), or the `fillna(0)` default. -/
def bucketCellOpt (b : TimeBucket) (sn : String) : Option ℚ :=
  match (b.groups.reverse).find? (fun g => g.key = sn) with
  | none => some 0
  | some g => floatOfDecimalString g.amount

/-- One service's row of cells, one per bucket. -/
def serviceRow (resp : RawBillingResponse) (sn : String) :
    Option (String × List ℚ) :=
  (mapOption (fun b => bucketCellOpt b sn) resp.resultsByTime).map (fun cs => (sn, cs))

/-- The unsorted rows of one account's frame, one per service in
first-appearance order. -/
def accountRows (resp : RawBillingResponse) : Option (List (String × List ℚ)) :=
  mapOption (serviceRow resp) (serviceList resp)

/-- The `Total` column of line 62: the row's costs summed across the
fetched months. -/
def rowTotal (row : String × List ℚ) : ℚ :=
  row.2.foldl (fun a c => a + c) 0

/-- Descending order on totals, the sort key of line 63. -/
def byTotalDesc (a b : String × List ℚ) : Prop :=
  rowTotal b ≤ rowTotal a

instance : DecidableRel byTotalDesc :=
  fun a b => inferInstanceAs (Decidable (rowTotal b ≤ rowTotal a))

instance : IsTotal (String × List ℚ) byTotalDesc :=
  ⟨fun a b => le_total (rowTotal b) (rowTotal a)⟩

instance : IsTrans (String × List ℚ) byTotalDesc :=
  ⟨fun _ _ _ h1 h2 => le_trans h2 h1⟩

/-- `df.sort_values(by="Total", ascending=False)`. -/
def sortRowsDesc (rows : List (String × List ℚ)) : List (String × List ℚ) :=
  List.insertionSort byTotalDesc rows

structure Sheet where
  header : List String
  rows : List (String × List ℚ)
deriving DecidableEq

/-- One account's sheet: the service-name column followed by one column
per fetched month label, rows sorted by descending total. -/
def accountSheet (resp : RawBillingResponse) : Option Sheet :=
  match monthsOf resp, accountRows resp with
  | some months, some rows => some ⟨"Service" :: months, sortRowsDesc rows⟩
  | _, _ => none

/-- The workbook written at lines 72-74: one sheet per account, named
after the account, in account order. -/
def exportWorkbook (accs : List (String × RawBillingResponse)) :
    Option (List (String × Sheet)) :=
  mapOption (fun p => (accountSheet p.2).map (fun sh => (p.1, sh))) accs

/-! ## Lemmas about the fact-table upsert -/

theorem insertOrIgnoreFact_of_mem (t : List FactRow) (r : FactRow)
    (h : ∃ x ∈ t, x.key = r.key) : insertOrIgnoreFact t r = t := by
  simp [insertOrIgnoreFact, h]

theorem insertOrIgnoreFact_of_not_mem (t : List FactRow) (r : FactRow)
    (h : ¬ ∃ x ∈ t, x.key = r.key) : insertOrIgnoreFact t r = t ++ [r] := by
  simp only [insertOrIgnoreFact, if_neg h]

theorem mem_key_insertOrIgnoreFact_self (t : List FactRow) (r : FactRow) :
    ∃ x ∈ insertOrIgnoreFact t r, x.key = r.key := by
  by_cases h : ∃ x ∈ t, x.key = r.key
  · rw [insertOrIgnoreFact_of_mem t r h]; exact h
  · rw [insertOrIgnoreFact_of_not_mem t r h]
    exact ⟨r, List.mem_append_right _ (List.mem_singleton_self r), rfl⟩

theorem mem_key_insertOrIgnoreFact_mono (t : List FactRow) (r : FactRow)
    (k : Nat × Nat × Nat × Nat) (h : ∃ x ∈ t, x.key = k) :
    ∃ x ∈ insertOrIgnoreFact t r, x.key = k := by
  unfold insertOrIgnoreFact
  split
  · exact h
  · obtain ⟨x, hx, hk⟩ := h
    exact ⟨x, List.mem_append_left _ hx, hk⟩

theorem upsertFacts_cons (t : List FactRow) (b : FactRow) (bs : List FactRow) :
    upsertFacts t (b :: bs) = upsertFacts (insertOrIgnoreFact t b) bs := rfl

theorem upsertFacts_append (t l1 l2 : List FactRow) :
    upsertFacts t (l1 ++ l2) = upsertFacts (upsertFacts t l1) l2 := by
  simp [upsertFacts, List.foldl_append]

theorem mem_key_upsertFacts_mono (t batch : List FactRow) (k : Nat × Nat × Nat × Nat)
    (h : ∃ x ∈ t, x.key = k) : ∃ x ∈ upsertFacts t batch, x.key = k := by
  induction batch generalizing t with
  | nil => exact h
  | cons b bs ih => exact ih _ (mem_key_insertOrIgnoreFact_mono t b k h)

theorem mem_key_upsertFacts (t batch : List FactRow) (b : FactRow) (hb : b ∈ batch) :
    ∃ x ∈ upsertFacts t batch, x.key = b.key := by
  induction batch generalizing t with
  | nil => cases hb
  | cons c cs ih =>
    rcases List.mem_cons.mp hb with h | h
    · subst h
      exact mem_key_upsertFacts_mono _ cs _ (mem_key_insertOrIgnoreFact_self t b)
    · exact ih _ h

theorem upsertFacts_eq_of_keys (t batch : List FactRow)
    (h : ∀ b ∈ batch, ∃ x ∈ t, x.key = b.key) : upsertFacts t batch = t := by
  induction batch with
  | nil => rfl
  | cons b bs ih =>
    rw [upsertFacts_cons, insertOrIgnoreFact_of_mem t b (h b (List.mem_cons_self b bs))]
    exact ih (fun x hx => h x (List.mem_cons_of_mem _ hx))

theorem lookupFact_isSome_iff (t : List FactRow) (k : Nat × Nat × Nat × Nat) :
    (∃ c, lookupFact t k = some c) ↔ ∃ x ∈ t, x.key = k := by
  induction t with
  | nil => simp [lookupFact]
  | cons r t ih =>
    by_cases h : r.key = k
    · simp [lookupFact, h]
    · simp only [lookupFact, if_neg h, ih, List.mem_cons]
      constructor
      · rintro ⟨x, hx, hk⟩; exact ⟨x, Or.inr hx, hk⟩
      · rintro ⟨x, hx | hx, hk⟩
        · subst hx; exact absurd hk h
        · exact ⟨x, hx, hk⟩

theorem lookupFact_eq_none_of_not_mem (t : List FactRow) (k : Nat × Nat × Nat × Nat)
    (h : ¬ ∃ x ∈ t, x.key = k) : lookupFact t k = none := by
  cases hl : lookupFact t k with
  | none => rfl
  | some c => exact absurd ((lookupFact_isSome_iff t k).mp ⟨c, hl⟩) h

theorem not_mem_of_lookupFact_eq_none (t : List FactRow) (k : Nat × Nat × Nat × Nat)
    (h : lookupFact t k = none) : ¬ ∃ x ∈ t, x.key = k := by
  intro hm
  obtain ⟨c, hc⟩ := (lookupFact_isSome_iff t k).mpr hm
  rw [h] at hc
  cases hc

theorem lookupFact_append_of_some (t u : List FactRow) (k : Nat × Nat × Nat × Nat)
    (c : ℚ) (h : lookupFact t k = some c) : lookupFact (t ++ u) k = some c := by
  induction t with
  | nil => cases h
  | cons r t ih =>
    by_cases hr : r.key = k
    · simp only [lookupFact, if_pos hr] at h ⊢
      exact h
    · simp only [lookupFact, if_neg hr] at h ⊢
      exact ih h

theorem lookupFact_append_of_none (t u : List FactRow) (k : Nat × Nat × Nat × Nat)
    (h : lookupFact t k = none) : lookupFact (t ++ u) k = lookupFact u k := by
  induction t with
  | nil => rfl
  | cons r t ih =>
    by_cases hr : r.key = k
    · simp only [lookupFact, if_pos hr] at h
      cases h
    · simp only [lookupFact, if_neg hr] at h ⊢
      exact ih h

theorem lookupFact_upsert_of_some (t batch : List FactRow) (k : Nat × Nat × Nat × Nat)
    (c : ℚ) (h : lookupFact t k = some c) :
    lookupFact (upsertFacts t batch) k = some c := by
  induction batch generalizing t with
  | nil => exact h
  | cons b bs ih =>
    rw [upsertFacts_cons]
    apply ih
    by_cases hb : ∃ x ∈ t, x.key = b.key
    · rw [insertOrIgnoreFact_of_mem t b hb]; exact h
    · rw [insertOrIgnoreFact_of_not_mem t b hb]
      exact lookupFact_append_of_some t [b] k c h

theorem lookupFact_upsert_of_none (t batch : List FactRow) (k : Nat × Nat × Nat × Nat)
    (h : lookupFact t k = none) (hb : ∀ x ∈ batch, x.key ≠ k) :
    lookupFact (upsertFacts t batch) k = none := by
  induction batch generalizing t with
  | nil => exact h
  | cons b bs ih =>
    rw [upsertFacts_cons]
    refine ih _ ?_ (fun x hx => hb x (List.mem_cons_of_mem _ hx))
    by_cases hm : ∃ x ∈ t, x.key = b.key
    · rw [insertOrIgnoreFact_of_mem t b hm]; exact h
    · rw [insertOrIgnoreFact_of_not_mem t b hm, lookupFact_append_of_none t [b] k h]
      simp [lookupFact, hb b (List.mem_cons_self b bs)]

theorem lookupFact_upsert_first (t b1 b2 : List FactRow) (r1 : FactRow)
    (ht : lookupFact t r1.key = none) (hb1 : ∀ x ∈ b1, x.key ≠ r1.key) :
    lookupFact (upsertFacts t (b1 ++ r1 :: b2)) r1.key = some r1.cost := by
  rw [upsertFacts_append]
  have h1 : lookupFact (upsertFacts t b1) r1.key = none :=
    lookupFact_upsert_of_none t b1 r1.key ht hb1
  rw [upsertFacts_cons,
    insertOrIgnoreFact_of_not_mem _ r1 (not_mem_of_lookupFact_eq_none _ _ h1)]
  apply lookupFact_upsert_of_some
  rw [lookupFact_append_of_none _ _ _ h1]
  simp [lookupFact]

theorem upsert_drops_later_duplicate (t b1 b2 b3 : List FactRow) (r1 r2 : FactRow)
    (hk : r2.key = r1.key) :
    upsertFacts t (b1 ++ r1 :: (b2 ++ r2 :: b3)) =
      upsertFacts t (b1 ++ r1 :: (b2 ++ b3)) := by
  have key1 : ∃ x ∈ insertOrIgnoreFact (upsertFacts t b1) r1, x.key = r2.key := by
    rw [hk]
    exact mem_key_insertOrIgnoreFact_self _ r1
  have key2 : ∃ x ∈ upsertFacts (insertOrIgnoreFact (upsertFacts t b1) r1) b2,
      x.key = r2.key :=
    mem_key_upsertFacts_mono _ b2 _ key1
  calc upsertFacts t (b1 ++ r1 :: (b2 ++ r2 :: b3))
      = upsertFacts (upsertFacts (insertOrIgnoreFact (upsertFacts t b1) r1) b2)
          (r2 :: b3) := by
        rw [upsertFacts_append, upsertFacts_cons, upsertFacts_append]
    _ = upsertFacts (upsertFacts (insertOrIgnoreFact (upsertFacts t b1) r1) b2) b3 := by
        rw [upsertFacts_cons, insertOrIgnoreFact_of_mem _ r2 key2]
    _ = upsertFacts t (b1 ++ r1 :: (b2 ++ b3)) := by
        rw [upsertFacts_append, upsertFacts_cons, upsertFacts_append]

/-! ## Lemmas about the dimension resolver -/

theorem dimLookup_append_self (rows : List (Nat × String)) (nid : Nat) (k : String)
    (h : dimLookup rows k = none) :
    dimLookup (rows ++ [(nid, k)]) k = some nid := by
  induction rows with
  | nil => simp [dimLookup]
  | cons r t ih =>
    by_cases hr : r.2 = k
    · simp only [dimLookup, if_pos hr] at h
      cases h
    · simp only [dimLookup, List.cons_append, if_neg hr] at h ⊢
      exact ih h

theorem countKey_append (t u : List (Nat × String)) (k : String) :
    countKey (t ++ u) k = countKey t k + countKey u k := by
  induction t with
  | nil => simp [countKey]
  | cons r t ih => simp [countKey, ih]; ring

theorem countKey_eq_zero_of_lookup_none (t : List (Nat × String)) (k : String)
    (h : dimLookup t k = none) : countKey t k = 0 := by
  induction t with
  | nil => rfl
  | cons r u ih =>
    by_cases hr : r.2 = k
    · simp only [dimLookup, if_pos hr] at h
      cases h
    · simp only [dimLookup, if_neg hr] at h
      simp [countKey, hr, ih h]

theorem countKey_pos_of_lookup_some (t : List (Nat × String)) (k : String) (i : Nat)
    (h : dimLookup t k = some i) : 1 ≤ countKey t k := by
  induction t with
  | nil => cases h
  | cons r u ih =>
    by_cases hr : r.2 = k
    · simp [countKey, hr]
    · simp only [dimLookup, if_neg hr] at h
      simpa [countKey, hr] using ih h

/-! ## Lemmas about the retry loop -/

theorem retryLoop_ok {R : Type} (o : Nat → Except String R) (a n : Nat) (r : R)
    (h : o a = Except.ok r) : retryLoop o a (n + 1) = ([a], [], some r) := by
  simp [retryLoop, h]

theorem retryLoop_err_last {R : Type} (o : Nat → Except String R) (a : Nat) (e : String)
    (h : o a = Except.error e) : retryLoop o a 1 = ([a], [], none) := by
  simp [retryLoop, h]

theorem retryLoop_err_step {R : Type} (o : Nat → Except String R) (a n : Nat) (e : String)
    (h : o a = Except.error e) (hn : n ≠ 0) :
    retryLoop o a (n + 1) =
      (a :: (retryLoop o (a + 1) n).1,
       2 ^ a :: (retryLoop o (a + 1) n).2.1,
       (retryLoop o (a + 1) n).2.2) := by
  simp [retryLoop, h, hn]

theorem retryLoop_length {R : Type} (o : Nat → Except String R) (a n : Nat) :
    (retryLoop o a n).1.length ≤ n := by
  induction n generalizing a with
  | zero => simp [retryLoop]
  | succ m ih =>
    cases h : o a with
    | ok r => rw [retryLoop_ok o a m r h]; simp
    | error e =>
      by_cases hm : m = 0
      · subst hm
        rw [retryLoop_err_last o a e h]
        simp
      · rw [retryLoop_err_step o a m e h hm]
        simpa using Nat.succ_le_succ (ih (a + 1))

theorem fetchWithRetry_all_fail {R : Type} (o : Nat → Except String R)
    (h : ∀ n, n < 3 → ∃ e, o n = Except.error e) :
    fetchWithRetry o = ([0, 1, 2], [2 ^ 0, 2 ^ 1], none) := by
  obtain ⟨e0, h0⟩ := h 0 (by decide)
  obtain ⟨e1, h1⟩ := h 1 (by decide)
  obtain ⟨e2, h2⟩ := h 2 (by decide)
  have s0 : retryLoop o 0 3 =
      (0 :: (retryLoop o 1 2).1, 2 ^ 0 :: (retryLoop o 1 2).2.1, (retryLoop o 1 2).2.2) :=
    retryLoop_err_step o 0 2 e0 h0 (by decide)
  have s1 : retryLoop o 1 2 =
      (1 :: (retryLoop o 2 1).1, 2 ^ 1 :: (retryLoop o 2 1).2.1, (retryLoop o 2 1).2.2) :=
    retryLoop_err_step o 1 1 e1 h1 (by decide)
  have s2 : retryLoop o 2 1 = ([2], [], none) := retryLoop_err_last o 2 e2 h2
  rw [fetchWithRetry, s0, s1, s2]

theorem process_account_fetch_exhausted
    (fetch : Nat → Except String RawBillingResponse) (account : String) (s : Store)
    (h : ∀ n, n < 3 → ∃ e, fetch n = Except.error e) :
    process_account fetch account s = (s, AccountStatus.failed) := by
  unfold process_account
  rw [fetchWithRetry_all_fail fetch h]

theorem runBatch_append (f : String → Nat → Except String RawBillingResponse)
    (l1 l2 : List String) (s : Store) :
    runBatch f (l1 ++ l2) s =
      ((runBatch f l2 (runBatch f l1 s).1).1,
       (runBatch f l1 s).2 ++ (runBatch f l2 (runBatch f l1 s).1).2) := by
  induction l1 generalizing s with
  | nil => simp [runBatch]
  | cons a t ih => simp [runBatch, ih]

/-! ## Lemmas about the cost-batch builder -/

theorem buildCostGroups_tagged (account : String) (month_id year_id : Nat)
    (gs : List CostGroup) (s s2 : Store) (rows : List FactRow)
    (h : buildCostGroups account month_id year_id gs s = (some rows, s2)) :
    (∀ r ∈ rows, r.month_id = month_id ∧ r.year_id = year_id) ∧
    rows.length = gs.length := by
  induction gs generalizing s rows s2 with
  | nil =>
    simp only [buildCostGroups, Prod.mk.injEq] at h
    obtain ⟨h1, _⟩ := h
    cases h1
    simp
  | cons g gs ih =>
    simp only [buildCostGroups] at h
    cases hf : floatOfDecimalString g.amount with
    | none => rw [hf] at h; cases h
    | some cost =>
      rw [hf] at h
      cases hrec : buildCostGroups account month_id year_id gs
          (get_or_insert_account (get_or_insert_service s g.key).2 account).2 with
      | mk orows s3 =>
        rw [hrec] at h
        cases orows with
        | none => cases h
        | some rows0 =>
          simp only [Prod.mk.injEq, Option.some.injEq] at h
          obtain ⟨h1, _⟩ := h
          subst h1
          obtain ⟨ih1, ih2⟩ := ih _ _ _ hrec
          refine ⟨?_, by simp [ih2]⟩
          intro r hr
          rcases List.mem_cons.mp hr with h | h
          · subst h; exact ⟨rfl, rfl⟩
          · exact ih1 r h

theorem buildCostData_tagged (account : String) (month_id year_id : Nat)
    (bs : List TimeBucket) (s s2 : Store) (rows : List FactRow)
    (h : buildCostData account month_id year_id bs s = (some rows, s2)) :
    (∀ r ∈ rows, r.month_id = month_id ∧ r.year_id = year_id) ∧
    rows.length = (bs.map (fun b => b.groups.length)).sum := by
  induction bs generalizing s rows s2 with
  | nil =>
    simp only [buildCostData, Prod.mk.injEq] at h
    obtain ⟨h1, _⟩ := h
    cases h1
    simp
  | cons b bs ih =>
    simp only [buildCostData] at h
    cases hg : buildCostGroups account month_id year_id b.groups s with
    | mk orows s1 =>
      rw [hg] at h
      cases orows with
      | none => cases h
      | some rows1 =>
        dsimp only at h
        cases hrec : buildCostData account month_id year_id bs s1 with
        | mk orows2 s3 =>
          rw [hrec] at h
          cases orows2 with
          | none => cases h
          | some rows2 =>
            simp only [Prod.mk.injEq, Option.some.injEq] at h
            obtain ⟨h1, _⟩ := h
            subst h1
            obtain ⟨g1, g2⟩ := buildCostGroups_tagged account month_id year_id b.groups s s1 rows1 hg
            obtain ⟨ih1, ih2⟩ := ih _ _ _ hrec
            constructor
            · intro r hr
              rcases List.mem_append.mp hr with h | h
              · exact g1 r h
              · exact ih1 r h
            · simp [g2, ih2]

/-! ## Lemmas about `mapOption` -/

theorem mapOption_length {α β : Type} (f : α → Option β) (l : List α) (out : List β)
    (h : mapOption f l = some out) : out.length = l.length := by
  induction l generalizing out with
  | nil =>
    simp only [mapOption, Option.some.injEq] at h
    subst h
    rfl
  | cons a t ih =>
    simp only [mapOption] at h
    cases hf : f a with
    | none => rw [hf] at h; cases h
    | some b =>
      rw [hf] at h
      cases hr : mapOption f t with
      | none => rw [hr] at h; cases h
      | some bs =>
        rw [hr] at h
        simp only [Option.some.injEq] at h
        subst h
        simp [ih bs hr]

theorem mapOption_pair_fst {α β : Type} (f : α → Option β) (l : List α)
    (out : List (α × β))
    (h : mapOption (fun a => (f a).map (fun b => (a, b))) l = some out) :
    out.map Prod.fst = l := by
  induction l generalizing out with
  | nil =>
    simp only [mapOption, Option.some.injEq] at h
    subst h
    rfl
  | cons a t ih =>
    simp only [mapOption] at h
    cases hf : f a with
    | none => rw [hf] at h; cases h
    | some b =>
      rw [hf] at h
      cases hr : mapOption (fun a => (f a).map (fun b => (a, b))) t with
      | none => rw [hr] at h; cases h
      | some bs =>
        rw [hr] at h
        simp only [Option.map_some', Option.some.injEq] at h
        subst h
        simp [ih bs hr]

/-! ## Nonnegativity of parsed and stored costs -/

theorem parseDecimal_nonneg (s : String) (v : ℚ) (h : parseDecimal s = some v) :
    0 ≤ v := by
  unfold parseDecimal at h
  cases hsp : (splitAtDot s.data).2 with
  | none =>
    rw [hsp] at h
    dsimp only at h
    cases hd : parseDigits (splitAtDot s.data).1 with
    | none => rw [hd] at h; cases h
    | some n =>
      rw [hd] at h
      simp only [Option.some.injEq] at h
      subst h
      exact Nat.cast_nonneg n
  | some f =>
    rw [hsp] at h
    dsimp only at h
    cases hd : parseDigits (splitAtDot s.data).1 with
    | none => rw [hd] at h; cases h
    | some n =>
      rw [hd] at h
      cases hf : parseDigits f with
      | none => rw [hf] at h; cases h
      | some m =>
        rw [hf] at h
        simp only [Option.some.injEq] at h
        subst h
        positivity

theorem roundPosToDouble_nonneg (q : ℚ) : 0 ≤ roundPosToDouble q := by
  simp only [roundPosToDouble]
  split
  · positivity
  · positivity

theorem roundToDouble_nonneg (v : ℚ) (h : 0 ≤ v) : 0 ≤ roundToDouble v := by
  unfold roundToDouble
  split
  · exact le_refl 0
  · split
    · exact roundPosToDouble_nonneg v
    · rename_i h0 hneg
      exact absurd (lt_of_le_of_ne (not_lt.mp hneg) h0) (not_lt.mpr h)

theorem round2dec_nonneg (v : ℚ) (h : 0 ≤ v) : 0 ≤ round2dec v := by
  unfold round2dec
  have hx : (0 : ℚ) ≤ v * 100 + 1 / 2 := by positivity
  have hfl : (0 : Int) ≤ Rat.floor (v * 100 + 1 / 2) :=
    Rat.le_floor.mpr (by exact_mod_cast hx)
  have : (0 : ℚ) ≤ ((Rat.floor (v * 100 + 1 / 2) : Int) : ℚ) := by exact_mod_cast hfl
  positivity

/-! ## The claims -/

/-- C1: re-running the fact upsert with the same batch of normalized
tuples over a fact table that already holds the first run's rows inserts
no row and overwrites no row: the fact-table contents, costs included,
after the second run equal those after the first run. -/
theorem upsert_idempotent (table batch : List FactRow) :
    upsertFacts (upsertFacts table batch) batch = upsertFacts table batch :=
  upsertFacts_eq_of_keys _ _ (fun b hb => mem_key_upsertFacts table batch b hb)

/-- C2: the retry loop makes at most 3 attempts; when the remote call
raises on attempts 0 and 1 and succeeds on attempt 2, the fetcher returns
the successful response after exactly the two backoff waits 2^0 and 2^1,
with exactly the attempts 0, 1, 2 made and no fourth one. -/
theorem retry_succeeds_on_third {R : Type} (outcome : Nat → Except String R)
    (e0 e1 : String) (r : R)
    (h0 : outcome 0 = Except.error e0) (h1 : outcome 1 = Except.error e1)
    (h2 : outcome 2 = Except.ok r) :
    fetchWithRetry outcome = ([0, 1, 2], [2 ^ 0, 2 ^ 1], some r) ∧
    ∀ g : Nat → Except String R, (fetchWithRetry g).1.length ≤ 3 := by
  constructor
  · have s0 : retryLoop outcome 0 3 =
        (0 :: (retryLoop outcome 1 2).1, 2 ^ 0 :: (retryLoop outcome 1 2).2.1,
         (retryLoop outcome 1 2).2.2) :=
      retryLoop_err_step outcome 0 2 e0 h0 (by decide)
    have s1 : retryLoop outcome 1 2 =
        (1 :: (retryLoop outcome 2 1).1, 2 ^ 1 :: (retryLoop outcome 2 1).2.1,
         (retryLoop outcome 2 1).2.2) :=
      retryLoop_err_step outcome 1 1 e1 h1 (by decide)
    have s2 : retryLoop outcome 2 1 = ([2], [], some r) := retryLoop_ok outcome 2 0 r h2
    rw [fetchWithRetry, s0, s1, s2]
  · intro g
    exact retryLoop_length g 0 3

theorem retry_succeeds_on_third_witness :
    fetchWithRetry (fun n => if n < 2 then (Except.error "boom" : Except String Nat)
        else Except.ok 7) = ([0, 1, 2], [2 ^ 0, 2 ^ 1], some 7) :=
  (retry_succeeds_on_third _ "boom" "boom" 7 rfl rfl rfl).1

/-- C3: an account whose billing fetch raises on all 3 attempts ends in
the failed state with the store it was given, untouched — no dimension row
and no fact row written — and in a batch run the remaining accounts see
exactly the stores and produce exactly the statuses they would without the
failing account; the batch is not aborted. -/
theorem fetch_exhausted_isolated
    (fetchFor : String → Nat → Except String RawBillingResponse)
    (pre post : List String) (a : String) (s : Store)
    (h : ∀ n, n < 3 → ∃ e, fetchFor a n = Except.error e) :
    (∀ s0 : Store, process_account (fetchFor a) a s0 = (s0, AccountStatus.failed)) ∧
    (runBatch fetchFor (pre ++ a :: post) s).1 = (runBatch fetchFor (pre ++ post) s).1 ∧
    (runBatch fetchFor (pre ++ a :: post) s).2 =
      (runBatch fetchFor pre s).2 ++
        (a, AccountStatus.failed) ::
          (runBatch fetchFor post (runBatch fetchFor pre s).1).2 := by
  have hp : ∀ s0 : Store, process_account (fetchFor a) a s0 = (s0, AccountStatus.failed) :=
    fun s0 => process_account_fetch_exhausted _ _ _ h
  refine ⟨hp, ?_, ?_⟩
  · rw [runBatch_append, runBatch_append]
    simp [runBatch, hp]
  · rw [runBatch_append]
    simp [runBatch, hp]

theorem fetch_exhausted_isolated_witness :
    (runBatch (fun _ _ => Except.error "down") (["acct-a"] ++ "acct-x" :: ["acct-b"])
        Store.empty).1 =
      (runBatch (fun _ _ => Except.error "down") (["acct-a"] ++ ["acct-b"]) Store.empty).1 :=
  (fetch_exhausted_isolated (fun _ _ => Except.error "down") ["acct-a"] ["acct-b"]
    "acct-x" Store.empty (fun _ _ => ⟨"down", rfl⟩)).2.1

/-- C4: normalization derives its single (monthLabel, yearLabel) pair from
the period-start date of the first time bucket only, while the
(serviceName, cost) pairs cover the groups of every bucket; for the
one-bucket response with groups EC2 at "12.50" and S3 at "3.00" it yields
exactly those two pairs and the label pair of that bucket's period start. -/
theorem normalize_first_bucket (resp : RawBillingResponse) (b0 : TimeBucket)
    (rest : List TimeBucket) (d : Date) (out : String × String × List (String × ℚ))
    (hb : resp.resultsByTime = b0 :: rest)
    (hd : parseIsoDate b0.start = some d)
    (hn : normalize resp = some out) :
    out.1 = monthAbbrev d.month ∧ out.2.1 = yearLabel d ∧
    out.2.2.length = (resp.resultsByTime.map (fun b => b.groups.length)).sum ∧
    normalize ⟨[⟨"2025-01-01", [⟨"EC2", "12.50"⟩, ⟨"S3", "3.00"⟩]⟩]⟩
      = some ("Jan", "2025", [("EC2", 25 / 2), ("S3", 3)]) := by
  unfold normalize at hn
  rw [hb] at hn ⊢
  dsimp only at hn
  rw [hd] at hn
  dsimp only at hn
  cases hm : mapOption (fun g => (floatOfDecimalString g.amount).map (fun c => (g.key, c)))
      ((b0 :: rest).flatMap (fun b => b.groups)) with
  | none => rw [hm] at hn; cases hn
  | some pairs =>
    rw [hm] at hn
    simp only [Option.map_some', Option.some.injEq] at hn
    subst hn
    refine ⟨rfl, rfl, ?_, by with_unfolding_all decide⟩
    have hlen := mapOption_length _ _ _ hm
    simp only [hlen, List.flatMap, List.length_flatten, List.map_map]
    rfl

theorem normalize_first_bucket_witness :
    (("Jan", "2025", [("EC2", (25 : ℚ) / 2), ("S3", (3 : ℚ))]) :
        String × String × List (String × ℚ)).1
      = monthAbbrev (Date.mk 2025 1 1).month :=
  (normalize_first_bucket ⟨[⟨"2025-01-01", [⟨"EC2", "12.50"⟩, ⟨"S3", "3.00"⟩]⟩]⟩
    ⟨"2025-01-01", [⟨"EC2", "12.50"⟩, ⟨"S3", "3.00"⟩]⟩ [] ⟨2025, 1, 1⟩ _
    rfl (by with_unfolding_all decide) (by with_unfolding_all decide)).1

/-- C5: resolving the same natural key twice in sequence returns the same
surrogate id both times, the second call leaves the store exactly as the
first left it, and after the first call the dimension table holds exactly
one row with that key (given the unique constraint held beforehand). -/
theorem dimension_resolver_idempotent (s : Store) (name : String)
    (hwf : countKey s.services.rows name ≤ 1) :
    (get_or_insert_service (get_or_insert_service s name).2 name).1
      = (get_or_insert_service s name).1 ∧
    (get_or_insert_service (get_or_insert_service s name).2 name).2
      = (get_or_insert_service s name).2 ∧
    countKey ((get_or_insert_service s name).2).services.rows name = 1 := by
  unfold get_or_insert_service getOrInsert
  cases hl : dimLookup s.services.rows name with
  | some i =>
    simp only [hl]
    refine ⟨trivial, trivial, ?_⟩
    exact le_antisymm hwf (countKey_pos_of_lookup_some _ _ _ hl)
  | none =>
    have h2 : dimLookup (s.services.rows ++ [(s.services.nextId, name)]) name
        = some s.services.nextId := dimLookup_append_self _ _ _ hl
    simp only [hl, h2]
    refine ⟨trivial, trivial, ?_⟩
    simp [countKey_append, countKey_eq_zero_of_lookup_none _ _ hl, countKey]

theorem dimension_resolver_idempotent_witness :
    countKey ((get_or_insert_service Store.empty "EC2").2).services.rows "EC2" = 1 :=
  (dimension_resolver_idempotent Store.empty "EC2" (by decide)).2.2

/-- C6: the reporting window runs from the first day of the previous
calendar month (with year rollover in January) to the first day of the
current calendar month, both as ISO-8601 dates. -/
theorem reporting_window_prev_month (today : Date)
    (h1 : 1 ≤ today.month) (h2 : today.month ≤ 12) (hy : 1000 ≤ today.year) :
    reportingWindow today =
      (isoDate (firstOfPrevMonth today), isoDate ⟨today.year, today.month, 1⟩) := by
  obtain ⟨y, m, d⟩ := today
  by_cases hm : m = 1
  · subst hm
    simp [reportingWindow, replaceDay1, subOneDay, firstOfPrevMonth]
  · have hm1 : 1 < m := lt_of_le_of_ne h1 (Ne.symm hm)
    simp [reportingWindow, replaceDay1, subOneDay, firstOfPrevMonth, hm, hm1]

theorem reporting_window_prev_month_witness :
    reportingWindow ⟨2026, 1, 15⟩ =
      (isoDate (firstOfPrevMonth ⟨2026, 1, 15⟩), isoDate ⟨2026, 1, 1⟩) :=
  reporting_window_prev_month ⟨2026, 1, 15⟩ (by decide) (by decide) (by decide)

/-- C7: the fact-batch upsert is atomic over its per-batch transaction:
for every batch and every failure behaviour, a reader of the fact table
afterwards sees either the whole batch insert-or-ignored and committed
with no error, or the table exactly as before with the error surfaced as
UpsertFailed — never a half-applied batch. -/
theorem fact_upsert_atomic (failAfter : Option Nat) (committed batch : List FactRow) :
    factUpsertTx failAfter committed batch = (upsertFacts committed batch, none) ∨
    factUpsertTx failAfter committed batch = (committed, some DbError.upsertFailed) := by
  cases failAfter with
  | none => exact Or.inl rfl
  | some k => exact Or.inr rfl

/-- C8 counterexample: the code's parse of a cost amount is not the exact
fixed-point decimal reading: `float("0.10")` differs from the exact value
1/10, and for "99999999999999.99" even the value reaching the
`DECIMAL(18,2)` column differs from the exact decimal value of the
string. -/
theorem cost_parse_not_exact_decimal :
    floatOfDecimalString "0.10" ≠ parseCostSpec "0.10" ∧
    parseCostSpec "0.10" = some (1 / 10) ∧
    storedCost "99999999999999.99" ≠ parseCostSpec "99999999999999.99" := by
  refine ⟨by with_unfolding_all decide, by with_unfolding_all decide, ?_⟩
  have h1 : ((storedCost "99999999999999.99").getD 0).num = 4999999999999999 := by
    with_unfolding_all decide
  have h2 : ((parseCostSpec "99999999999999.99").getD 0).num = 9999999999999999 := by
    with_unfolding_all decide
  intro he
  rw [he, h2] at h1
  exact absurd h1 (by decide)

/-- C8 amended: the cost amount is parsed from its decimal string with
binary64 floating-point rounding (an approximating representation), the
stored column value is that rounded value further rounded to 2 decimals by
the DECIMAL(18,2) column, and both are non-negative for the non-negative
decimal amounts. -/
theorem cost_parse_binary64 (s : String) (v : ℚ) (h : parseDecimal s = some v) :
    floatOfDecimalString s = some (roundToDouble v) ∧
    storedCost s = some (round2dec (roundToDouble v)) ∧
    0 ≤ roundToDouble v ∧ 0 ≤ round2dec (roundToDouble v) := by
  have hv : 0 ≤ v := parseDecimal_nonneg s v h
  have hr : 0 ≤ roundToDouble v := roundToDouble_nonneg v hv
  refine ⟨?_, ?_, hr, round2dec_nonneg _ hr⟩
  · rw [floatOfDecimalString, h]
    rfl
  · rw [storedCost, floatOfDecimalString, h]
    rfl

theorem cost_parse_binary64_witness :
    parseDecimal "12.50" = some (25 / 2) ∧
    floatOfDecimalString "12.50" = some (roundToDouble (25 / 2)) :=
  ⟨by with_unfolding_all decide,
   (cost_parse_binary64 "12.50" (25 / 2) (by with_unfolding_all decide)).1⟩

/-- C9: the workbook holds exactly one sheet per account, named after the
account and in account order; each sheet's columns are the service-name
column followed by one column per fetched month label, and its rows are
the account's per-service rows sorted by descending total cost across the
fetched months (a permutation of the unsorted service rows, whose order
lists the account's services). -/
theorem excel_export_shape (accs : List (String × RawBillingResponse))
    (books : List (String × Sheet)) (h : exportWorkbook accs = some books) :
    books.map Prod.fst = accs.map Prod.fst ∧
    List.Forall₂ (fun (p : String × RawBillingResponse) (q : String × Sheet) =>
      q.1 = p.1 ∧
      ∃ months rows, monthsOf p.2 = some months ∧ accountRows p.2 = some rows ∧
        rows.map Prod.fst = serviceList p.2 ∧
        q.2.header = "Service" :: months ∧
        q.2.rows = sortRowsDesc rows ∧
        List.Sorted byTotalDesc q.2.rows ∧
        q.2.rows.Perm rows) accs books := by
  induction accs generalizing books with
  | nil =>
    simp only [exportWorkbook, mapOption, Option.some.injEq] at h
    subst h
    exact ⟨rfl, List.Forall₂.nil⟩
  | cons p t ih =>
    simp only [exportWorkbook, mapOption] at h
    cases hs : accountSheet p.2 with
    | none => rw [hs] at h; cases h
    | some sh =>
      rw [hs] at h
      cases hr : mapOption (fun p => (accountSheet p.2).map (fun sh => (p.1, sh))) t with
      | none => rw [hr] at h; cases h
      | some bs =>
        rw [hr] at h
        simp only [Option.map_some', Option.some.injEq] at h
        subst h
        obtain ⟨ih1, ih2⟩ := ih bs hr
        unfold accountSheet at hs
        cases hm : monthsOf p.2 with
        | none => rw [hm] at hs; cases hs
        | some months =>
          rw [hm] at hs
          cases hrow : accountRows p.2 with
          | none => rw [hrow] at hs; cases hs
          | some rows =>
            rw [hrow] at hs
            simp only [Option.some.injEq] at hs
            subst hs
            refine ⟨by simp [ih1], List.Forall₂.cons
              ⟨rfl, months, rows, hm, hrow, ?_, rfl, rfl, ?_, ?_⟩ ih2⟩
            · exact mapOption_pair_fst
                (fun sn => mapOption (fun b => bucketCellOpt b sn) p.2.resultsByTime)
                (serviceList p.2) rows hrow
            · exact List.sorted_insertionSort byTotalDesc rows
            · exact List.perm_insertionSort byTotalDesc rows

theorem excel_export_shape_witness :
    ([(("account-1" : String), (⟨["Service", "Jan \x2725"],
        [("EC2", [(25 : ℚ) / 2]), ("S3", [(3 : ℚ)])]⟩ : Sheet))]).map Prod.fst
      = ([(("account-1" : String),
          (⟨[⟨"2025-01-01", [⟨"EC2", "12.50"⟩, ⟨"S3", "3.00"⟩]⟩]⟩ :
            RawBillingResponse))]).map Prod.fst :=
  (excel_export_shape
    [("account-1", ⟨[⟨"2025-01-01", [⟨"EC2", "12.50"⟩, ⟨"S3", "3.00"⟩]⟩]⟩)]
    [("account-1", ⟨["Service", "Jan \x2725"], [("EC2", [25 / 2]), ("S3", [3])]⟩)]
    (by with_unfolding_all decide)).1

/-- C10: the database pipeline builds fact tuples from the service groups
of every bucket, but tags every one of them with the month id and year id
it was handed — the ids process_account derives from the first bucket
only; and when two tuples of one batch share the dimension key (the same
service in two buckets), the insert-or-ignore stores the first one's cost
and silently drops the later one: the fact table is exactly as if the
later duplicate were absent. -/
theorem multi_bucket_first_occurrence_wins
    (account : String) (month_id year_id : Nat) (buckets : List TimeBucket)
    (s s2 : Store) (rows : List FactRow)
    (h : buildCostData account month_id year_id buckets s = (some rows, s2))
    (t bb1 bb2 bb3 : List FactRow) (r1 r2 : FactRow)
    (hk : r2.key = r1.key) (ht : lookupFact t r1.key = none)
    (hb1 : ∀ x ∈ bb1, x.key ≠ r1.key) :
    (∀ r ∈ rows, r.month_id = month_id ∧ r.year_id = year_id) ∧
    rows.length = (buckets.map (fun b => b.groups.length)).sum ∧
    lookupFact (upsertFacts t (bb1 ++ r1 :: (bb2 ++ r2 :: bb3))) r1.key = some r1.cost ∧
    upsertFacts t (bb1 ++ r1 :: (bb2 ++ r2 :: bb3)) =
      upsertFacts t (bb1 ++ r1 :: (bb2 ++ bb3)) := by
  obtain ⟨h1, h2⟩ := buildCostData_tagged account month_id year_id buckets s s2 rows h
  exact ⟨h1, h2, lookupFact_upsert_first t bb1 (bb2 ++ r2 :: bb3) r1 ht hb1,
    upsert_drops_later_duplicate t bb1 bb2 bb3 r1 r2 hk⟩

theorem multi_bucket_first_occurrence_wins_witness :
    lookupFact
        (upsertFacts [] ([] ++ (⟨1, 1, 1, 2, 25 / 2⟩ : FactRow) ::
          ([] ++ (⟨1, 1, 1, 2, 99⟩ : FactRow) :: [])))
        (FactRow.key ⟨1, 1, 1, 2, 25 / 2⟩) = some (25 / 2) :=
  (multi_bucket_first_occurrence_wins "acct" 1 2
    [⟨"2025-01-01", [⟨"EC2", "12.50"⟩]⟩, ⟨"2025-02-01", [⟨"EC2", "99.00"⟩]⟩]
    Store.empty
    { accounts := ⟨[(1, "acct")], 2⟩, months := DimTable.empty, years := DimTable.empty,
      services := ⟨[(1, "EC2")], 2⟩, aws_costs := [] }
    [⟨1, 1, 1, 2, 25 / 2⟩, ⟨1, 1, 1, 2, 99⟩]
    (by with_unfolding_all decide)
    [] [] [] [] ⟨1, 1, 1, 2, 25 / 2⟩ ⟨1, 1, 1, 2, 99⟩
    (by decide) rfl (by simp)).2.2.1

end AwsCosts
